import Mathlib

/-!
Verification of the Private DNS validation engine specification
(aospa-ex/android_packages_modules_DnsResolver, `PrivateDnsConfiguration`).

The repository ships only the test file `PrivateDnsConfigurationTest.cpp`;
the implementation `PrivateDnsConfiguration.cpp` itself is not part of the
sources available here. The definitions below are therefore a shallow
embedding of the engine as described by the specification (sections 3, 4,
6, 7), cross-checked against the observable behaviour the test file pins
down (return codes, observer sequences, probe counts, identity comparison).
Concurrency is modelled by making each externally triggered transition an
explicit pure step on the coordinator state: `set`, `clear`,
`requestValidation` are the caller-thread steps, and `finishEpisode` is the
step in which an in-flight validation episode commits its terminal result.
-/

namespace PrivateDns

/-- Modelled from the spec: socket addresses are external to the engine; a
`ServerIdentity` compares "the socket address (including the port)". We keep
the textual IP and the port. -/
structure SockAddr where
  ip : String
  port : Nat
deriving DecidableEq

/-- Modelled from the spec (§3): a candidate server is identified by the
pair (socket address, provider hostname string); equality is field-wise and
case-sensitive on the hostname. -/
structure ServerIdentity where
  addr : SockAddr
  hostname : String
deriving DecidableEq

/-- Modelled from the spec (§3): validation states of a tracked server.
Absence of a record means "untracked", which is not a state. -/
inductive ValidationState where
  | in_process
  | success
  | fail
deriving DecidableEq

/-- Modelled from the spec (§3). -/
inductive PrivateDnsMode where
  | OFF
  | OPPORTUNISTIC
  | STRICT
deriving DecidableEq

/-- Modelled from the spec (§3): per-network record holding the mode, the
routing mark and the ServerIdentity → ValidationState mapping (an
association list; insertion order irrelevant). -/
structure NetworkRecord where
  mode : PrivateDnsMode
  mark : Nat
  servers : List (ServerIdentity × ValidationState)
deriving DecidableEq

/-- Modelled from the spec (§3): the context of one in-flight validation
episode — owning (NetworkId, ServerIdentity), routing mark, attempt
counter. -/
structure EpisodeCtx where
  netId : Nat
  identity : ServerIdentity
  mark : Nat
  attempt : Nat
deriving DecidableEq

/-- Modelled from the spec (§6): one `onValidationStateUpdate` observer
notification. -/
structure Notification where
  identity : ServerIdentity
  state : ValidationState
  netId : Nat
deriving DecidableEq

/-- Modelled from the spec (§4.1, §5): the coordinator's shared state — the
validation store plus the set of in-flight episode contexts. -/
structure PDCState where
  store : List (Nat × NetworkRecord)
  episodes : List EpisodeCtx
deriving DecidableEq

/-- Look a network record up in the store. -/
def lookupRecord : List (Nat × NetworkRecord) → Nat → Option NetworkRecord
  | [], _ => none
  | (n, r) :: rest, netId => if netId = n then some r else lookupRecord rest netId

/-- Look a server's validation state up in a record's server map. -/
def lookupState : List (ServerIdentity × ValidationState) → ServerIdentity → Option ValidationState
  | [], _ => none
  | (j, s) :: rest, i => if i = j then some s else lookupState rest i

/-- The server map a store tracks for a network (empty if no record). -/
def storeServers (store : List (Nat × NetworkRecord)) (netId : Nat) :
    List (ServerIdentity × ValidationState) :=
  match lookupRecord store netId with
  | some r => r.servers
  | none => []

/-- The server map currently tracked for a network (empty if no record). -/
def oldServers (st : PDCState) (netId : Nat) : List (ServerIdentity × ValidationState) :=
  storeServers st.store netId

/-- Whether a key is present in a server map. -/
def keyMem (m : List (ServerIdentity × ValidationState)) (i : ServerIdentity) : Bool :=
  (lookupState m i).isSome

/-- Modelled from the spec (§4.1): `isTracked(netId, identity)`. -/
def isTracked (st : PDCState) (netId : Nat) (i : ServerIdentity) : Bool :=
  keyMem (oldServers st netId) i

/-- The validation state currently recorded for (netId, identity), if
tracked. -/
def stateOf (st : PDCState) (netId : Nat) (i : ServerIdentity) : Option ValidationState :=
  lookupState (oldServers st netId) i

/-- The routing mark configured for a network, if a record exists. -/
def markOf (st : PDCState) (netId : Nat) : Option Nat :=
  (lookupRecord st.store netId).map NetworkRecord.mark

/-- Replace (or insert) the record for a network id. -/
def storeSet : List (Nat × NetworkRecord) → Nat → NetworkRecord → List (Nat × NetworkRecord)
  | [], netId, r => [(netId, r)]
  | (n, r') :: rest, netId, r =>
    if netId = n then (n, r) :: rest else (n, r') :: storeSet rest netId r

/-- Modelled from the spec (§4.1): `remove(netId)` deletes the whole
record. -/
def storeRemove : List (Nat × NetworkRecord) → Nat → List (Nat × NetworkRecord)
  | [], _ => []
  | (n, r) :: rest, netId =>
    if netId = n then storeRemove rest netId else (n, r) :: storeRemove rest netId

/-- Update the state of one key in a server map (no-op on a missing key). -/
def setServerState :
    List (ServerIdentity × ValidationState) → ServerIdentity → ValidationState →
    List (ServerIdentity × ValidationState)
  | [], _, _ => []
  | (j, s') :: rest, i, s =>
    if i = j then (j, s) :: rest else (j, s') :: setServerState rest i s

/-- Modelled from the spec (§4.1): `setState(netId, identity, state)` writes
the state only if (netId, identity) is still tracked and returns whether the
write applied (`false` ⇒ untracked/discarded). -/
def storeSetState :
    List (Nat × NetworkRecord) → Nat → ServerIdentity → ValidationState →
    List (Nat × NetworkRecord) × Bool
  | [], _, _, _ => ([], false)
  | (n, r) :: rest, netId, i, s =>
    if netId = n then
      if keyMem r.servers i then
        ((n, { r with servers := setServerState r.servers i s }) :: rest, true)
      else ((n, r) :: rest, false)
    else
      let p := storeSetState rest netId i s
      ((n, r) :: p.1, p.2)

/-- Modelled from the spec (§4.3): result of `getStatus` — the mode and a
snapshot of the identity → state map; a netId without a record reports mode
`OFF` and an empty map. -/
structure PrivateDnsStatus where
  mode : PrivateDnsMode
  serversMap : List (ServerIdentity × ValidationState)
deriving DecidableEq

/-- Modelled from the spec (§4.3): `getStatus(netId)` returns the store
snapshot; untracked identities are absent from the map. -/
def getStatus (st : PDCState) (netId : Nat) : PrivateDnsStatus :=
  match lookupRecord st.store netId with
  | some r => { mode := r.mode, serversMap := r.servers }
  | none => { mode := PrivateDnsMode.OFF, serversMap := [] }

/-- Modelled from the spec (§4.3): `hasServer` is `Store.isTracked`. -/
def hasServer (st : PDCState) (i : ServerIdentity) (netId : Nat) : Bool :=
  isTracked st netId i

/-- Decimal value of a digit list, accumulator style. -/
def octetValAux (acc : Nat) : List Char → Nat
  | [] => acc
  | c :: rest => octetValAux (acc * 10 + (c.toNat - 48)) rest

/-- Whether a character list is a decimal number in 0..255 (one IPv4
octet). -/
def isIPv4Octet (cs : List Char) : Bool :=
  !cs.isEmpty && cs.all Char.isDigit && decide (octetValAux 0 cs ≤ 255)

/-- Split a character list on the dot separator. -/
def splitOnDot : List Char → List (List Char)
  | [] => [[]]
  | c :: rest =>
    match splitOnDot rest with
    | [] => if c = '.' then [[], []] else [[c]]
    | g :: gs => if c = '.' then [] :: g :: gs else (c :: g) :: gs

/-- Modelled from the spec: address parsing is an external capability; the
engine only "validates every server address syntactically". We model the
IPv4 dotted-quad form used throughout the tests; the DNS-over-TLS port 853
is implied. A malformed string parses to `none`. -/
def parseIPv4 (s : String) : Option SockAddr :=
  match splitOnDot s.toList with
  | [a, b, c, d] =>
    if isIPv4Octet a && isIPv4Octet b && isIPv4Octet c && isIPv4Octet d then
      some { ip := s, port := 853 }
    else none
  | _ => none

/-- Parse every server string; any malformed entry fails the whole list. -/
def parseServers : List String → Option (List SockAddr)
  | [] => some []
  | s :: rest =>
    match parseIPv4 s, parseServers rest with
    | some a, some l => some (a :: l)
    | _, _ => none

/-- Modelled from the spec (§4.1 upsert): build the new server map from the
old one and the requested identity list; identities already tracked keep
their state, new ones start at `in_process` and are returned (deduplicated)
as the list of identities for which episodes must be started. -/
def buildServers (old : List (ServerIdentity × ValidationState)) :
    List ServerIdentity → List (ServerIdentity × ValidationState) × List ServerIdentity
  | [] => ([], [])
  | i :: rest =>
    let p := buildServers old rest
    match lookupState p.1 i with
    | some _ => p
    | none =>
      match lookupState old i with
      | some s => ((i, s) :: p.1, p.2)
      | none => ((i, ValidationState.in_process) :: p.1, i :: p.2)

/-- POSIX invalid-argument error number. -/
def EINVAL : Int := 22

/-- Result of a `set` (configure) call: the returned status code, the state
after the call, the observer notifications it issues, and the episodes it
starts. -/
structure SetResult where
  ret : Int
  state : PDCState
  notifs : List Notification
  started : List EpisodeCtx
deriving DecidableEq

/-- Modelled from the spec (§4.3 configure): validates every server address;
on any malformed entry rejects the whole call with `-EINVAL` and leaves the
state untouched. An empty server list is valid and retires the network's
record (mode `OFF`). Otherwise the mode is derived from the arguments (a
provider hostname means `STRICT`, else `OPPORTUNISTIC`), the store is
upserted, and one episode per newly tracked identity is started, each with
one `in_process` notification. -/
def set (st : PDCState) (netId mark : Nat) (servers : List String) (name : String) :
    SetResult :=
  match parseServers servers with
  | none => { ret := -EINVAL, state := st, notifs := [], started := [] }
  | some addrs =>
    match addrs with
    | [] =>
      { ret := 0,
        state := { st with store := storeRemove st.store netId },
        notifs := [], started := [] }
    | a :: rest =>
      let ids := (a :: rest).map fun x => ServerIdentity.mk x name
      let mode := if name = "" then PrivateDnsMode.OPPORTUNISTIC else PrivateDnsMode.STRICT
      let p := buildServers (oldServers st netId) ids
      let eps := p.2.map fun i => EpisodeCtx.mk netId i mark 0
      { ret := 0,
        state :=
          { store := storeSet st.store netId { mode := mode, mark := mark, servers := p.1 },
            episodes := st.episodes ++ eps },
        notifs := p.2.map fun i => Notification.mk i ValidationState.in_process netId,
        started := eps }

/-- Modelled from the spec (§4.3): `clear(netId)` removes the record; no new
episodes, no notifications; outstanding episodes self-resolve later. -/
def clear (st : PDCState) (netId : Nat) : PDCState :=
  { st with store := storeRemove st.store netId }

/-- Result of a `requestValidation` call. -/
structure ReqResult where
  ok : Bool
  state : PDCState
  notifs : List Notification
  started : List EpisodeCtx
deriving DecidableEq

/-- The denial result: no state change, no notification, no episode. -/
def denyResult (st : PDCState) : ReqResult :=
  { ok := false, state := st, notifs := [], started := [] }

/-- Modelled from the spec (§4.3): `requestValidation(netId, identity, mark)`
is denied if the identity is untracked, already `in_process`, or the mark
does not match the network's configured mark; otherwise it writes
`in_process`, notifies, and starts a fresh episode (attempt counter
reset). -/
def requestValidation (st : PDCState) (netId : Nat) (i : ServerIdentity) (mark : Nat) :
    ReqResult :=
  match lookupRecord st.store netId with
  | none => denyResult st
  | some r =>
    match lookupState r.servers i with
    | none => denyResult st
    | some s =>
      if s = ValidationState.in_process then denyResult st
      else if mark = r.mark then
        { ok := true,
          state :=
            { store :=
                storeSet st.store netId
                  { r with servers := setServerState r.servers i ValidationState.in_process },
              episodes := st.episodes ++ [EpisodeCtx.mk netId i mark 0] },
          notifs := [Notification.mk i ValidationState.in_process netId],
          started := [EpisodeCtx.mk netId i mark 0] }
      else denyResult st

/-- Remove one episode context from the in-flight list. -/
def removeEpisode : List EpisodeCtx → EpisodeCtx → List EpisodeCtx
  | [], _ => []
  | x :: rest, e => if x = e then rest else x :: removeEpisode rest e

/-- Result of an episode committing its terminal state. -/
structure FinishResult where
  state : PDCState
  notifs : List Notification
deriving DecidableEq

/-- Modelled from the spec (§4.2 steps 3–4): when an episode terminates it
writes its terminal state through `Store.setState`; the observer is notified
with the actual written state, which is `fail` when the write was rejected
because the (netId, identity) became untracked. -/
def finishEpisode (st : PDCState) (e : EpisodeCtx) (outcome : ValidationState) :
    FinishResult :=
  let p := storeSetState st.store e.netId e.identity outcome
  let written := if p.2 then outcome else ValidationState.fail
  { state := { store := p.1, episodes := removeEpisode st.episodes e },
    notifs := [Notification.mk e.identity written e.netId] }

/-- Modelled from the spec (§4.2, §6): the latency-trust feature
configuration, read once at episode start — enabled flag, minimum and
maximum latency thresholds (milliseconds). -/
structure LatencyCfg where
  enabled : Bool
  minMs : Nat
  maxMs : Nat
deriving DecidableEq

/-- Modelled from the spec (§6): one Prober invocation reports success with
an elapsed latency, or failure (timeouts count as failure). -/
inductive ProbeResult where
  | failure
  | success (latencyMs : Nat)
deriving DecidableEq

/-- One observable action of an episode: a probe attempt, or a backoff wait
of a given delay. -/
inductive EAct where
  | probe (attempt : Nat)
  | wait (delayMs : Nat)
deriving DecidableEq

/-- Modelled from the spec (§4.2 step 2): the probe/retry loop of one
episode. `probe` gives the Prober's outcome per 1-based attempt index,
`delays` the Backoff Scheduler's delay after a given attempt, `fuel` the
remaining attempt allowance, and `confirmatory` whether a provisional slow
success has already been observed (so the max threshold applies). Returns
the action trace and the terminal state. -/
def runEpisodeAux (cfg : LatencyCfg) (probe : Nat → ProbeResult) (delays : Nat → Nat) :
    Nat → Nat → Bool → List EAct × ValidationState
  | _, 0, _ => ([], ValidationState.fail)
  | attempt, fuel + 1, confirmatory =>
    match probe attempt with
    | ProbeResult.failure =>
      if fuel = 0 then ([EAct.probe attempt], ValidationState.fail)
      else
        let p := runEpisodeAux cfg probe delays (attempt + 1) fuel confirmatory
        (EAct.probe attempt :: EAct.wait (delays attempt) :: p.1, p.2)
    | ProbeResult.success lat =>
      if cfg.enabled = false then ([EAct.probe attempt], ValidationState.success)
      else if lat ≤ cfg.minMs then ([EAct.probe attempt], ValidationState.success)
      else if confirmatory = true ∧ lat ≤ cfg.maxMs then
        ([EAct.probe attempt], ValidationState.success)
      else if fuel = 0 then ([EAct.probe attempt], ValidationState.fail)
      else
        let p := runEpisodeAux cfg probe delays (attempt + 1) fuel true
        (EAct.probe attempt :: EAct.wait (delays attempt) :: p.1, p.2)

/-- Run one episode from its first attempt with a given attempt bound. -/
def runEpisode (cfg : LatencyCfg) (probe : Nat → ProbeResult) (delays : Nat → Nat)
    (maxAttempts : Nat) : List EAct × ValidationState :=
  runEpisodeAux cfg probe delays 1 maxAttempts false

/-- Modelled from the spec (§4.2): in `OPPORTUNISTIC` mode the attempt bound
is a fixed constant (`kOpportunisticModeMaxAttempts` in the header the test
references); the spec does not repeat its numeric value, the upstream
constant is 5. -/
def kOpportunisticModeMaxAttempts : Nat := 5

/-- Number of probe attempts in an episode's action trace. -/
def countProbes : List EAct → Nat
  | [] => 0
  | EAct.probe _ :: rest => countProbes rest + 1
  | EAct.wait _ :: rest => countProbes rest

/-- Number of occurrences of an identity in a list. -/
def countId (i : ServerIdentity) : List ServerIdentity → Nat
  | [] => 0
  | j :: rest => (if j = i then 1 else 0) + countId i rest

/-- Number of episode contexts in a list owned by (netId, identity). -/
def countEpisodesFor (netId : Nat) (i : ServerIdentity) : List EpisodeCtx → Nat
  | [] => 0
  | e :: rest =>
    (if e.netId = netId ∧ e.identity = i then 1 else 0) + countEpisodesFor netId i rest

/-- Number of notifications in a list for (netId, identity) carrying a given
state. -/
def countNotifs (netId : Nat) (i : ServerIdentity) (s : ValidationState) :
    List Notification → Nat
  | [] => 0
  | n :: rest =>
    (if n.netId = netId ∧ n.identity = i ∧ n.state = s then 1 else 0) +
      countNotifs netId i s rest

/-! ### Concrete inputs mirroring the test fixtures -/

/-- The first test server (`kServer1`) on the DNS-over-TLS port. -/
def wAddr1 : SockAddr := { ip := "127.0.2.2", port := 853 }

/-- The identity of `kServer1` with no provider hostname. -/
def wId1 : ServerIdentity := { addr := wAddr1, hostname := "" }

/-- An episode context owning (netId 30, `kServer1`). -/
def wEp1 : EpisodeCtx := { netId := 30, identity := wId1, mark := 30, attempt := 0 }

/-- The empty coordinator state. -/
def wSt0 : PDCState := { store := [], episodes := [] }

/-- A state whose store is empty while one stale episode is still in
flight. -/
def wStEp : PDCState := { store := [], episodes := [wEp1] }

/-- A record for network 30 with `kServer1` validated. -/
def wRecSuccess : NetworkRecord :=
  { mode := PrivateDnsMode.OPPORTUNISTIC, mark := 30,
    servers := [(wId1, ValidationState.success)] }

/-- A state tracking `kServer1` in state `success` on network 30. -/
def wStSuccess : PDCState := { store := [(30, wRecSuccess)], episodes := [] }

/-- A record for network 30 with `kServer1` still validating. -/
def wRecInProcess : NetworkRecord :=
  { mode := PrivateDnsMode.OPPORTUNISTIC, mark := 30,
    servers := [(wId1, ValidationState.in_process)] }

/-- A state tracking `kServer1` in state `in_process` on network 30, its
episode in flight. -/
def wStInProcess : PDCState := { store := [(30, wRecInProcess)], episodes := [wEp1] }

/-! ### Supporting lemmas -/

theorem lookupRecord_storeSet_self (store : List (Nat × NetworkRecord)) (netId : Nat)
    (r : NetworkRecord) : lookupRecord (storeSet store netId r) netId = some r := by
  induction store with
  | nil => simp [storeSet, lookupRecord]
  | cons hd tl ih =>
    obtain ⟨n, r'⟩ := hd
    by_cases h : netId = n
    · simp [storeSet, h, lookupRecord]
    · simp [storeSet, h, lookupRecord, ih]

theorem lookupRecord_storeRemove_self (store : List (Nat × NetworkRecord)) (netId : Nat) :
    lookupRecord (storeRemove store netId) netId = none := by
  induction store with
  | nil => simp [storeRemove, lookupRecord]
  | cons hd tl ih =>
    obtain ⟨n, r'⟩ := hd
    by_cases h : netId = n
    · subst h; simp [storeRemove, lookupRecord, ih]
    · simp [storeRemove, h, lookupRecord, ih]

theorem getStatus_serversMap_eq (st : PDCState) (n : Nat) :
    (getStatus st n).serversMap = storeServers st.store n := by
  cases h : lookupRecord st.store n <;> simp [getStatus, storeServers, h]

theorem lookupState_eq_none_of_keyMem_false {m : List (ServerIdentity × ValidationState)}
    {i : ServerIdentity} (h : keyMem m i = false) : lookupState m i = none := by
  cases hl : lookupState m i with
  | none => rfl
  | some s => simp [keyMem, hl] at h

theorem storeSetState_untracked (store : List (Nat × NetworkRecord)) (netId : Nat)
    (i : ServerIdentity) (s : ValidationState)
    (h : keyMem (storeServers store netId) i = false) :
    storeSetState store netId i s = (store, false) := by
  induction store with
  | nil => rfl
  | cons hd tl ih =>
    obtain ⟨n, r⟩ := hd
    by_cases hn : netId = n
    · have hr : keyMem r.servers i = false := by
        simpa [storeServers, lookupRecord, hn] using h
      simp [storeSetState, hn, hr]
    · have h' : keyMem (storeServers tl netId) i = false := by
        simpa [storeServers, lookupRecord, hn] using h
      simp [storeSetState, hn, ih h']

theorem storeSetState_tracked_snd (store : List (Nat × NetworkRecord)) (netId : Nat)
    (i : ServerIdentity) (s : ValidationState)
    (h : keyMem (storeServers store netId) i = true) :
    (storeSetState store netId i s).2 = true := by
  induction store with
  | nil => simp [storeServers, lookupRecord, keyMem, lookupState] at h
  | cons hd tl ih =>
    obtain ⟨n, r⟩ := hd
    by_cases hn : netId = n
    · have hr : keyMem r.servers i = true := by
        simpa [storeServers, lookupRecord, hn] using h
      simp [storeSetState, hn, hr]
    · have h' : keyMem (storeServers tl netId) i = true := by
        simpa [storeServers, lookupRecord, hn] using h
      simp [storeSetState, hn, ih h']

theorem lookupState_setServerState_self (m : List (ServerIdentity × ValidationState))
    (i : ServerIdentity) (s s0 : ValidationState) (h : lookupState m i = some s0) :
    lookupState (setServerState m i s) i = some s := by
  induction m with
  | nil => simp [lookupState] at h
  | cons hd tl ih =>
    obtain ⟨j, s'⟩ := hd
    by_cases hij : i = j
    · simp [setServerState, hij, lookupState]
    · simp only [lookupState, if_neg hij] at h
      simp [setServerState, hij, lookupState, ih h]

theorem parseServers_eq_none {servers : List String}
    (h : ∃ s ∈ servers, parseIPv4 s = none) : parseServers servers = none := by
  induction servers with
  | nil => simp at h
  | cons hd tl ih =>
    obtain ⟨s, hs, hnone⟩ := h
    rcases List.mem_cons.mp hs with heq | hmem
    · subst heq
      cases hp : parseServers tl <;> simp [parseServers, hnone, hp]
    · have := ih ⟨s, hmem, hnone⟩
      cases hp : parseIPv4 hd <;> simp [parseServers, this, hp]

theorem buildServers_count (old : List (ServerIdentity × ValidationState))
    (ids : List ServerIdentity) (i : ServerIdentity) :
    countId i (buildServers old ids).2 =
      if (lookupState (buildServers old ids).1 i).isSome = true ∧ lookupState old i = none
      then 1 else 0 := by
  induction ids with
  | nil => simp [buildServers, countId, lookupState]
  | cons j rest ih =>
    cases h1 : lookupState (buildServers old rest).1 j with
    | some s0 => simpa [buildServers, h1] using ih
    | none =>
      cases h2 : lookupState old j with
      | some s =>
        by_cases hij : i = j
        · subst hij
          simp [buildServers, h1, h2, lookupState, countId, ih]
        · simp [buildServers, h1, h2, lookupState, hij, countId, ih]
      | none =>
        by_cases hij : i = j
        · subst hij
          simp [buildServers, h1, h2, lookupState, countId, ih]
        · simp [buildServers, h1, h2, lookupState, hij, Ne.symm hij, countId, ih]

theorem countEpisodesFor_map (netId mark : Nat) (l : List ServerIdentity)
    (i : ServerIdentity) :
    countEpisodesFor netId i (l.map fun j => EpisodeCtx.mk netId j mark 0) = countId i l := by
  induction l with
  | nil => rfl
  | cons j rest ih => by_cases hij : j = i <;> simp [countEpisodesFor, countId, hij, ih]

theorem countNotifs_map_in_process (netId : Nat) (l : List ServerIdentity)
    (i : ServerIdentity) :
    countNotifs netId i ValidationState.in_process
        (l.map fun j => Notification.mk j ValidationState.in_process netId) = countId i l := by
  induction l with
  | nil => rfl
  | cons j rest ih => by_cases hij : j = i <;> simp [countNotifs, countId, hij, ih]

theorem countNotifs_map_terminal (netId : Nat) (l : List ServerIdentity)
    (i : ServerIdentity) (s : ValidationState) (hs : s ≠ ValidationState.in_process) :
    countNotifs netId i s
        (l.map fun j => Notification.mk j ValidationState.in_process netId) = 0 := by
  induction l with
  | nil => rfl
  | cons j rest ih =>
    have hs' : ¬ValidationState.in_process = s := fun h => hs h.symm
    simp [countNotifs, ih, hs']

theorem runEpisodeAux_eq (cfg : LatencyCfg) (probe : Nat → ProbeResult)
    (delays : Nat → Nat) (attempt fuel : Nat) (confirmatory : Bool) :
    runEpisodeAux cfg probe delays attempt (fuel + 1) confirmatory =
      match probe attempt with
      | ProbeResult.failure =>
        if fuel = 0 then ([EAct.probe attempt], ValidationState.fail)
        else
          let p := runEpisodeAux cfg probe delays (attempt + 1) fuel confirmatory
          (EAct.probe attempt :: EAct.wait (delays attempt) :: p.1, p.2)
      | ProbeResult.success lat =>
        if cfg.enabled = false then ([EAct.probe attempt], ValidationState.success)
        else if lat ≤ cfg.minMs then ([EAct.probe attempt], ValidationState.success)
        else if confirmatory = true ∧ lat ≤ cfg.maxMs then
          ([EAct.probe attempt], ValidationState.success)
        else if fuel = 0 then ([EAct.probe attempt], ValidationState.fail)
        else
          let p := runEpisodeAux cfg probe delays (attempt + 1) fuel true
          (EAct.probe attempt :: EAct.wait (delays attempt) :: p.1, p.2) := rfl

theorem runEpisodeAux_head (cfg : LatencyCfg) (probe : Nat → ProbeResult)
    (delays : Nat → Nat) (attempt fuel : Nat) (conf : Bool) :
    ∃ tl, (runEpisodeAux cfg probe delays attempt (fuel + 1) conf).1 =
      EAct.probe attempt :: tl := by
  cases hpr : probe attempt with
  | failure =>
    simp only [runEpisodeAux, hpr]
    split
    · exact ⟨[], rfl⟩
    · exact ⟨_, rfl⟩
  | success lat =>
    simp only [runEpisodeAux, hpr]
    split
    · exact ⟨[], rfl⟩
    · split
      · exact ⟨[], rfl⟩
      · split
        · exact ⟨[], rfl⟩
        · split
          · exact ⟨[], rfl⟩
          · exact ⟨_, rfl⟩

theorem runEpisodeAux_slow_all (cfg : LatencyCfg) (probe : Nat → ProbeResult)
    (delays : Nat → Nat) (lat : Nat) (he : cfg.enabled = true)
    (hmm : cfg.minMs ≤ cfg.maxMs) (hl : cfg.maxMs < lat)
    (hp : ∀ n, probe n = ProbeResult.success lat) :
    ∀ fuel attempt conf,
      countProbes (runEpisodeAux cfg probe delays attempt (fuel + 1) conf).1 = fuel + 1 ∧
      (runEpisodeAux cfg probe delays attempt (fuel + 1) conf).2 = ValidationState.fail := by
  intro fuel
  induction fuel with
  | zero =>
    intro attempt conf
    have hmin : ¬lat ≤ cfg.minMs := by omega
    have hmax : ¬(conf = true ∧ lat ≤ cfg.maxMs) := by
      rintro ⟨_, hle⟩; omega
    simp [runEpisodeAux, hp attempt, he, hmin, hmax, countProbes]
  | succ n ih =>
    intro attempt conf
    have hmin : ¬lat ≤ cfg.minMs := by omega
    have hmax : ¬(conf = true ∧ lat ≤ cfg.maxMs) := by
      rintro ⟨_, hle⟩; omega
    obtain ⟨ihc, ihs⟩ := ih (attempt + 1) true
    rw [runEpisodeAux_eq, hp attempt]
    simp [he, hmin, hmax, countProbes, ihc, ihs]

/-- C4: for an episode whose probe succeeds, with the latency-trust feature
disabled the episode finalizes `success` immediately after the single probe
regardless of the latency; with the feature enabled and the latency at or
below the minimum threshold it finalizes `success` after that single probe;
with the feature enabled and the latency above the minimum threshold it does
not finalize on that attempt but waits the backoff delay and performs a
confirmatory re-probe. -/
theorem episode_latency_heuristic (cfg : LatencyCfg) (probe : Nat → ProbeResult)
    (delays : Nat → Nat) (m lat : Nat)
    (hp : probe 1 = ProbeResult.success lat) :
    (cfg.enabled = false →
        runEpisode cfg probe delays (m + 1) = ([EAct.probe 1], ValidationState.success)) ∧
    (cfg.enabled = true → lat ≤ cfg.minMs →
        runEpisode cfg probe delays (m + 1) = ([EAct.probe 1], ValidationState.success)) ∧
    (cfg.enabled = true → cfg.minMs < lat →
        List.take 3 (runEpisode cfg probe delays (m + 2)).1 =
          [EAct.probe 1, EAct.wait (delays 1), EAct.probe 2]) := by
  refine ⟨?_, ?_, ?_⟩
  · intro he
    simp [runEpisode, runEpisodeAux, hp, he]
  · intro he hle
    simp [runEpisode, runEpisodeAux, hp, he, hle]
  · intro he hlt
    have hmin : ¬lat ≤ cfg.minMs := by omega
    obtain ⟨tl, htl⟩ := runEpisodeAux_head cfg probe delays 2 m true
    rw [runEpisode, show m + 2 = (m + 1) + 1 from rfl, runEpisodeAux_eq, hp]
    simp [he, hmin, htl]

/-- C7: in `OPPORTUNISTIC` mode with the latency-trust feature enabled, a
server that always succeeds with latency above the maximum threshold makes
the episode perform exactly `kOpportunisticModeMaxAttempts` probes and then
finalize `fail`; with the feature disabled the same server finalizes
`success` after exactly one probe. -/
theorem opportunistic_slow_server_max_attempts (cfg : LatencyCfg)
    (probe : Nat → ProbeResult) (delays : Nat → Nat) (lat : Nat)
    (hp : ∀ n, probe n = ProbeResult.success lat)
    (hmm : cfg.minMs ≤ cfg.maxMs) (hl : cfg.maxMs < lat) :
    (cfg.enabled = true →
        countProbes (runEpisode cfg probe delays kOpportunisticModeMaxAttempts).1 =
            kOpportunisticModeMaxAttempts ∧
        (runEpisode cfg probe delays kOpportunisticModeMaxAttempts).2 =
            ValidationState.fail) ∧
    (cfg.enabled = false →
        countProbes (runEpisode cfg probe delays kOpportunisticModeMaxAttempts).1 = 1 ∧
        (runEpisode cfg probe delays kOpportunisticModeMaxAttempts).2 =
            ValidationState.success) := by
  constructor
  · intro he
    have h := runEpisodeAux_slow_all cfg probe delays lat he hmm hl hp 4 1 false
    simpa [runEpisode, kOpportunisticModeMaxAttempts] using h
  · intro he
    rw [show kOpportunisticModeMaxAttempts = 4 + 1 from rfl]
    simp [runEpisode, runEpisodeAux, hp 1, he, countProbes]

theorem set_eq_cons (st : PDCState) (netId mark : Nat) (servers : List String)
    (name : String) (a : SockAddr) (rest : List SockAddr)
    (hp : parseServers servers = some (a :: rest)) :
    set st netId mark servers name =
      { ret := 0,
        state :=
          { store :=
              storeSet st.store netId
                { mode :=
                    if name = "" then PrivateDnsMode.OPPORTUNISTIC else PrivateDnsMode.STRICT,
                  mark := mark,
                  servers :=
                    (buildServers (oldServers st netId)
                        ((a :: rest).map fun x => ServerIdentity.mk x name)).1 },
            episodes :=
              st.episodes ++
                ((buildServers (oldServers st netId)
                      ((a :: rest).map fun x => ServerIdentity.mk x name)).2.map
                  fun i => EpisodeCtx.mk netId i mark 0) },
        notifs :=
          (buildServers (oldServers st netId)
              ((a :: rest).map fun x => ServerIdentity.mk x name)).2.map
            fun i => Notification.mk i ValidationState.in_process netId,
        started :=
          (buildServers (oldServers st netId)
              ((a :: rest).map fun x => ServerIdentity.mk x name)).2.map
            fun i => EpisodeCtx.mk netId i mark 0 } := by
  simp [set, hp]

/-- C1: when an episode's (netId, identity) has become untracked before the
episode commits its terminal state, the episode's result is converted to
`fail`, reported exactly once to the Observer as `fail`, and never written
into the store: the status snapshots are unchanged and the identity is
absent from `getStatus` for its network. -/
theorem untracked_episode_result_discarded (st : PDCState) (e : EpisodeCtx)
    (outcome : ValidationState)
    (hu : isTracked st e.netId e.identity = false) :
    (finishEpisode st e outcome).notifs =
        [Notification.mk e.identity ValidationState.fail e.netId] ∧
    (finishEpisode st e outcome).state.store = st.store ∧
    (∀ n, getStatus (finishEpisode st e outcome).state n = getStatus st n) ∧
    lookupState (getStatus (finishEpisode st e outcome).state e.netId).serversMap
        e.identity = none := by
  have hu' : keyMem (storeServers st.store e.netId) e.identity = false := hu
  have hss := storeSetState_untracked st.store e.netId e.identity outcome hu'
  refine ⟨?_, ?_, ?_, ?_⟩
  · simp [finishEpisode, hss]
  · simp [finishEpisode, hss]
  · intro n
    simp [finishEpisode, hss, getStatus]
  · have h2 : (finishEpisode st e outcome).state.store = st.store := by
      simp [finishEpisode, hss]
    rw [getStatus_serversMap_eq, h2]
    exact lookupState_eq_none_of_keyMem_false hu'

/-- C2: a configure (set) call whose server list contains a syntactically
malformed address returns `-EINVAL` and changes nothing: the state is
untouched (so `getStatus` is unchanged for every network), no episode is
started and no notification is issued. -/
theorem set_malformed_address_all_or_nothing (st : PDCState) (netId mark : Nat)
    (servers : List String) (name : String)
    (h : ∃ s ∈ servers, parseIPv4 s = none) :
    set st netId mark servers name =
        { ret := -EINVAL, state := st, notifs := [], started := [] } ∧
    ∀ n, getStatus (set st netId mark servers name).state n = getStatus st n := by
  have hp := parseServers_eq_none h
  constructor
  · simp [set, hp]
  · intro n
    simp [set, hp]

/-- C3: a valid configure (set) call starts exactly one validation episode
for each identity it newly tracks and issues exactly one `in_process`
notification for it, and no terminal (`success`/`fail`) notification at all,
so the single `in_process` notification precedes any terminal one. -/
theorem set_new_identity_starts_one_episode (st : PDCState) (netId mark : Nat)
    (servers : List String) (name : String) (addrs : List SockAddr)
    (i : ServerIdentity)
    (hp : parseServers servers = some addrs) (hne : addrs ≠ [])
    (hafter : isTracked (set st netId mark servers name).state netId i = true)
    (hbefore : isTracked st netId i = false) :
    countEpisodesFor netId i (set st netId mark servers name).started = 1 ∧
    countNotifs netId i ValidationState.in_process
        (set st netId mark servers name).notifs = 1 ∧
    countNotifs netId i ValidationState.success
        (set st netId mark servers name).notifs = 0 ∧
    countNotifs netId i ValidationState.fail
        (set st netId mark servers name).notifs = 0 := by
  cases addrs with
  | nil => exact absurd rfl hne
  | cons a rest =>
    rw [set_eq_cons st netId mark servers name a rest hp] at hafter ⊢
    have hsrv : ∀ rec : NetworkRecord,
        storeServers (storeSet st.store netId rec) netId = rec.servers := by
      intro rec
      simp [storeServers, lookupRecord_storeSet_self]
    have hkey :
        (lookupState
            (buildServers (oldServers st netId)
                ((a :: rest).map fun x => ServerIdentity.mk x name)).1 i).isSome = true := by
      simpa [isTracked, oldServers, hsrv, keyMem] using hafter
    have hold : lookupState (oldServers st netId) i = none :=
      lookupState_eq_none_of_keyMem_false hbefore
    have hcount :
        countId i
          (buildServers (oldServers st netId)
              ((a :: rest).map fun x => ServerIdentity.mk x name)).2 = 1 := by
      have h := buildServers_count (oldServers st netId)
        ((a :: rest).map fun x => ServerIdentity.mk x name) i
      have hcond :
          (lookupState
              (buildServers (oldServers st netId)
                  ((a :: rest).map fun x => ServerIdentity.mk x name)).1 i).isSome = true ∧
          lookupState (oldServers st netId) i = none := ⟨hkey, hold⟩
      rw [h, if_pos hcond]
    refine ⟨?_, ?_, ?_, ?_⟩
    · rw [countEpisodesFor_map]
      exact hcount
    · rw [countNotifs_map_in_process]
      exact hcount
    · exact countNotifs_map_terminal _ _ _ _ (by simp)
    · exact countNotifs_map_terminal _ _ _ _ (by simp)

/-- C5: `requestValidation` on a tracked identity whose current state is
`success` or `fail`, called with the network's configured mark, succeeds: it
resets the identity's state to `in_process`, notifies the Observer once,
starts a fresh episode with the attempt counter reset, and the episode's
eventual commit yields a fresh terminal notification. -/
theorem requestValidation_terminal_revalidates (st : PDCState) (netId : Nat)
    (i : ServerIdentity) (r : NetworkRecord) (s : ValidationState)
    (hr : lookupRecord st.store netId = some r)
    (hs : lookupState r.servers i = some s)
    (hterm : s = ValidationState.success ∨ s = ValidationState.fail) :
    (requestValidation st netId i r.mark).ok = true ∧
    stateOf (requestValidation st netId i r.mark).state netId i =
        some ValidationState.in_process ∧
    (requestValidation st netId i r.mark).notifs =
        [Notification.mk i ValidationState.in_process netId] ∧
    (requestValidation st netId i r.mark).started = [EpisodeCtx.mk netId i r.mark 0] ∧
    ∀ outcome : ValidationState,
      (finishEpisode (requestValidation st netId i r.mark).state
          (EpisodeCtx.mk netId i r.mark 0) outcome).notifs =
        [Notification.mk i outcome netId] := by
  have hsne : ¬s = ValidationState.in_process := by
    rcases hterm with h | h <;> subst h <;> simp
  have hreq : requestValidation st netId i r.mark =
      { ok := true,
        state :=
          { store :=
              storeSet st.store netId
                { r with servers := setServerState r.servers i ValidationState.in_process },
            episodes := st.episodes ++ [EpisodeCtx.mk netId i r.mark 0] },
        notifs := [Notification.mk i ValidationState.in_process netId],
        started := [EpisodeCtx.mk netId i r.mark 0] } := by
    simp [requestValidation, hr, hs, hsne]
  rw [hreq]
  have hsrv :
      storeServers
        (storeSet st.store netId
          { r with servers := setServerState r.servers i ValidationState.in_process })
        netId = setServerState r.servers i ValidationState.in_process := by
    simp [storeServers, lookupRecord_storeSet_self]
  have hlook : lookupState (setServerState r.servers i ValidationState.in_process) i =
      some ValidationState.in_process :=
    lookupState_setServerState_self r.servers i ValidationState.in_process s hs
  refine ⟨rfl, ?_, rfl, rfl, ?_⟩
  · simp [stateOf, oldServers, hsrv, hlook]
  · intro outcome
    have hkey :
        keyMem
          (storeServers
            (storeSet st.store netId
              { r with servers := setServerState r.servers i ValidationState.in_process })
            netId) i = true := by
      simp [keyMem, hsrv, hlook]
    have hsnd := storeSetState_tracked_snd
      (storeSet st.store netId
        { r with servers := setServerState r.servers i ValidationState.in_process })
      netId i outcome hkey
    simp [finishEpisode, hsnd]

/-- C6: `requestValidation` on an untracked identity, an identity currently
`in_process`, or with a mark that differs from the network's configured
mark, returns a denial: no state change, no notification, no episode. -/
theorem requestValidation_denied_no_effect (st : PDCState) (netId : Nat)
    (i : ServerIdentity) (mark : Nat)
    (h : isTracked st netId i = false ∨
         stateOf st netId i = some ValidationState.in_process ∨
         markOf st netId ≠ some mark) :
    requestValidation st netId i mark = denyResult st := by
  cases hr : lookupRecord st.store netId with
  | none => simp [requestValidation, hr]
  | some r =>
    cases hsv : lookupState r.servers i with
    | none => simp [requestValidation, hr, hsv]
    | some s =>
      have htr : isTracked st netId i = true := by
        simp [isTracked, oldServers, storeServers, hr, keyMem, hsv]
      rcases h with h | h | h
      · rw [htr] at h
        exact absurd h (by simp)
      · have hsf : stateOf st netId i = some s := by
          simp [stateOf, oldServers, storeServers, hr, hsv]
        rw [hsf] at h
        have hst : s = ValidationState.in_process := Option.some_inj.mp h
        simp [requestValidation, hr, hsv, hst]
      · have hm : markOf st netId = some r.mark := by
          simp [markOf, hr]
        have hmarkne : ¬mark = r.mark := by
          intro hmk
          subst hmk
          exact h hm
        by_cases hsp : s = ValidationState.in_process
        · simp [requestValidation, hr, hsv, hsp]
        · simp [requestValidation, hr, hsv, hsp, hmarkne]

/-- C8: a configure (set) call whose server list includes an identity that
is already tracked for the network (in particular one currently
`in_process`) starts no new episode for that identity and issues no
additional `in_process` notification for it (dedup). -/
theorem set_tracked_in_process_dedup (st : PDCState) (netId mark : Nat)
    (servers : List String) (name : String) (addrs : List SockAddr)
    (i : ServerIdentity)
    (hp : parseServers servers = some addrs) (hne : addrs ≠ [])
    (_hmem : i ∈ addrs.map fun x => ServerIdentity.mk x name)
    (_htr : isTracked st netId i = true)
    (hip : stateOf st netId i = some ValidationState.in_process) :
    countEpisodesFor netId i (set st netId mark servers name).started = 0 ∧
    countNotifs netId i ValidationState.in_process
        (set st netId mark servers name).notifs = 0 := by
  cases addrs with
  | nil => exact absurd rfl hne
  | cons a rest =>
    rw [set_eq_cons st netId mark servers name a rest hp]
    have hold : lookupState (oldServers st netId) i = some ValidationState.in_process := hip
    have hcount :
        countId i
          (buildServers (oldServers st netId)
              ((a :: rest).map fun x => ServerIdentity.mk x name)).2 = 0 := by
      have h := buildServers_count (oldServers st netId)
        ((a :: rest).map fun x => ServerIdentity.mk x name) i
      simpa [hold] using h
    constructor
    · rw [countEpisodesFor_map]
      exact hcount
    · rw [countNotifs_map_in_process]
      exact hcount

/-- C9: two `ServerIdentity` values are equal iff both the socket address
(including the port) and the provider hostname match exactly; the hostname
comparison is case-sensitive, and an empty hostname is distinct from any
non-empty one. -/
theorem serverIdentity_equality :
    (∀ i1 i2 : ServerIdentity, i1 = i2 ↔ i1.addr = i2.addr ∧ i1.hostname = i2.hostname) ∧
    (∀ a a' : SockAddr, ∀ h : String, h ≠ "" →
        ServerIdentity.mk a "" ≠ ServerIdentity.mk a' h) ∧
    ServerIdentity.mk { ip := "127.0.0.1", port := 853 } "dns.example.com" ≠
        ServerIdentity.mk { ip := "127.0.0.1", port := 853 } "DNS.example.com" ∧
    ServerIdentity.mk { ip := "127.0.0.1", port := 853 } "dns.example.com" ≠
        ServerIdentity.mk { ip := "127.0.0.1", port := 5353 } "dns.example.com" := by
  refine ⟨?_, ?_, ?_, ?_⟩
  · rintro ⟨a1, h1⟩ ⟨a2, h2⟩
    simp [ServerIdentity.mk.injEq]
  · intro a a' h hne heq
    simp [ServerIdentity.mk.injEq] at heq
    exact hne heq.2.symm
  · decide
  · decide

/-- C10: the mode reported by `getStatus` is derived from the configure
arguments: a set call with a non-empty valid server list and no provider
hostname returns 0 and yields mode `OPPORTUNISTIC`; a set call with an
empty server list returns 0 and yields mode `OFF` with an empty map, as
does any netId without a record (never successfully configured). -/
theorem mode_derived_from_configuration (st : PDCState) (netId mark : Nat)
    (servers : List String) (addrs : List SockAddr)
    (hp : parseServers servers = some addrs) (hne : addrs ≠ []) :
    ((set st netId mark servers "").ret = 0 ∧
      (getStatus (set st netId mark servers "").state netId).mode =
          PrivateDnsMode.OPPORTUNISTIC) ∧
    ((set st netId mark ([] : List String) "").ret = 0 ∧
      getStatus (set st netId mark ([] : List String) "").state netId =
          { mode := PrivateDnsMode.OFF, serversMap := [] }) ∧
    ∀ st' : PDCState, lookupRecord st'.store netId = none →
      getStatus st' netId = { mode := PrivateDnsMode.OFF, serversMap := [] } := by
  refine ⟨?_, ?_, ?_⟩
  · cases addrs with
    | nil => exact absurd rfl hne
    | cons a rest =>
      rw [set_eq_cons st netId mark servers "" a rest hp]
      refine ⟨rfl, ?_⟩
      simp [getStatus, lookupRecord_storeSet_self]
  · constructor
    · simp [set, parseServers]
    · simp [set, parseServers, getStatus, lookupRecord_storeRemove_self]
  · intro st' h
    simp [getStatus, h]

/-- Witness for C1 at a concrete stale episode. -/
theorem untracked_episode_result_discarded_witness :
    isTracked wStEp 30 wId1 = false ∧
    (finishEpisode wStEp wEp1 ValidationState.success).notifs =
        [Notification.mk wId1 ValidationState.fail 30] ∧
    getStatus (finishEpisode wStEp wEp1 ValidationState.success).state 30 =
        getStatus wStEp 30 ∧
    lookupState
        (getStatus (finishEpisode wStEp wEp1 ValidationState.success).state 30).serversMap
        wId1 = none :=
  ⟨by decide,
   (untracked_episode_result_discarded wStEp wEp1 ValidationState.success (by decide)).1,
   (untracked_episode_result_discarded wStEp wEp1 ValidationState.success (by decide)).2.2.1 30,
   (untracked_episode_result_discarded wStEp wEp1 ValidationState.success (by decide)).2.2.2⟩

/-- Witness for C2 at the test's `"invalid_addr"` input. -/
theorem set_malformed_address_all_or_nothing_witness :
    parseIPv4 "invalid_addr" = none ∧
    set wStSuccess 30 30 ["invalid_addr"] "" =
        { ret := -EINVAL, state := wStSuccess, notifs := [], started := [] } ∧
    getStatus (set wStSuccess 30 30 ["invalid_addr"] "").state 30 = getStatus wStSuccess 30 :=
  ⟨by decide,
   (set_malformed_address_all_or_nothing wStSuccess 30 30 ["invalid_addr"] ""
      ⟨"invalid_addr", by decide, by decide⟩).1,
   (set_malformed_address_all_or_nothing wStSuccess 30 30 ["invalid_addr"] ""
      ⟨"invalid_addr", by decide, by decide⟩).2 30⟩

/-- Witness for C3 at the test's first-configure scenario. -/
theorem set_new_identity_starts_one_episode_witness :
    isTracked (set wSt0 30 30 ["127.0.2.2"] "").state 30 wId1 = true ∧
    isTracked wSt0 30 wId1 = false ∧
    countEpisodesFor 30 wId1 (set wSt0 30 30 ["127.0.2.2"] "").started = 1 ∧
    countNotifs 30 wId1 ValidationState.in_process
        (set wSt0 30 30 ["127.0.2.2"] "").notifs = 1 ∧
    countNotifs 30 wId1 ValidationState.success
        (set wSt0 30 30 ["127.0.2.2"] "").notifs = 0 :=
  ⟨by decide, by decide,
   (set_new_identity_starts_one_episode wSt0 30 30 ["127.0.2.2"] "" [wAddr1] wId1
      (by decide) (by decide) (by decide) (by decide)).1,
   (set_new_identity_starts_one_episode wSt0 30 30 ["127.0.2.2"] "" [wAddr1] wId1
      (by decide) (by decide) (by decide) (by decide)).2.1,
   (set_new_identity_starts_one_episode wSt0 30 30 ["127.0.2.2"] "" [wAddr1] wId1
      (by decide) (by decide) (by decide) (by decide)).2.2.1⟩

/-- Witness for C4 at the test's probing-time configurations. -/
theorem episode_latency_heuristic_witness :
    (runEpisode { enabled := false, minMs := 500, maxMs := 1000 }
        (fun _ => ProbeResult.success 750) (fun _ => 1000) 1 =
      ([EAct.probe 1], ValidationState.success)) ∧
    (runEpisode { enabled := true, minMs := 500, maxMs := 1000 }
        (fun _ => ProbeResult.success 50) (fun _ => 1000) 1 =
      ([EAct.probe 1], ValidationState.success)) ∧
    (500 < 750 ∧
      List.take 3
          (runEpisode { enabled := true, minMs := 500, maxMs := 1000 }
            (fun _ => ProbeResult.success 750) (fun _ => 1000) 2).1 =
        [EAct.probe 1, EAct.wait 1000, EAct.probe 2]) :=
  ⟨(episode_latency_heuristic { enabled := false, minMs := 500, maxMs := 1000 }
      (fun _ => ProbeResult.success 750) (fun _ => 1000) 0 750 rfl).1 rfl,
   (episode_latency_heuristic { enabled := true, minMs := 500, maxMs := 1000 }
      (fun _ => ProbeResult.success 50) (fun _ => 1000) 0 50 rfl).2.1 rfl (by decide),
   by decide,
   (episode_latency_heuristic { enabled := true, minMs := 500, maxMs := 1000 }
      (fun _ => ProbeResult.success 750) (fun _ => 1000) 0 750 rfl).2.2 rfl (by decide)⟩

/-- Witness for C5 at a concrete validated server. -/
theorem requestValidation_terminal_revalidates_witness :
    lookupRecord wStSuccess.store 30 = some wRecSuccess ∧
    (requestValidation wStSuccess 30 wId1 30).ok = true ∧
    stateOf (requestValidation wStSuccess 30 wId1 30).state 30 wId1 =
        some ValidationState.in_process ∧
    (requestValidation wStSuccess 30 wId1 30).started = [EpisodeCtx.mk 30 wId1 30 0] ∧
    (finishEpisode (requestValidation wStSuccess 30 wId1 30).state
        (EpisodeCtx.mk 30 wId1 30 0) ValidationState.success).notifs =
      [Notification.mk wId1 ValidationState.success 30] :=
  ⟨by decide,
   (requestValidation_terminal_revalidates wStSuccess 30 wId1 wRecSuccess
      ValidationState.success (by decide) (by decide) (Or.inl rfl)).1,
   (requestValidation_terminal_revalidates wStSuccess 30 wId1 wRecSuccess
      ValidationState.success (by decide) (by decide) (Or.inl rfl)).2.1,
   (requestValidation_terminal_revalidates wStSuccess 30 wId1 wRecSuccess
      ValidationState.success (by decide) (by decide) (Or.inl rfl)).2.2.2.1,
   (requestValidation_terminal_revalidates wStSuccess 30 wId1 wRecSuccess
      ValidationState.success (by decide) (by decide) (Or.inl rfl)).2.2.2.2
     ValidationState.success⟩

/-- Witness for C6 at a concrete `in_process` server. -/
theorem requestValidation_denied_no_effect_witness :
    stateOf wStInProcess 30 wId1 = some ValidationState.in_process ∧
    requestValidation wStInProcess 30 wId1 30 = denyResult wStInProcess :=
  ⟨by decide,
   requestValidation_denied_no_effect wStInProcess 30 wId1 30
     (Or.inr (Or.inl (by decide)))⟩

/-- Witness for C7 at the test's `ValidationMaxProbes` configuration. -/
theorem opportunistic_slow_server_max_attempts_witness :
    200 < 300 ∧
    countProbes
        (runEpisode { enabled := true, minMs := 100, maxMs := 200 }
          (fun _ => ProbeResult.success 300) (fun _ => 1000)
          kOpportunisticModeMaxAttempts).1 = kOpportunisticModeMaxAttempts ∧
    (runEpisode { enabled := true, minMs := 100, maxMs := 200 }
        (fun _ => ProbeResult.success 300) (fun _ => 1000)
        kOpportunisticModeMaxAttempts).2 = ValidationState.fail ∧
    countProbes
        (runEpisode { enabled := false, minMs := 100, maxMs := 200 }
          (fun _ => ProbeResult.success 300) (fun _ => 1000)
          kOpportunisticModeMaxAttempts).1 = 1 :=
  ⟨by decide,
   ((opportunistic_slow_server_max_attempts { enabled := true, minMs := 100, maxMs := 200 }
      (fun _ => ProbeResult.success 300) (fun _ => 1000) 300 (fun _ => rfl)
      (by decide) (by decide)).1 rfl).1,
   ((opportunistic_slow_server_max_attempts { enabled := true, minMs := 100, maxMs := 200 }
      (fun _ => ProbeResult.success 300) (fun _ => 1000) 300 (fun _ => rfl)
      (by decide) (by decide)).1 rfl).2,
   ((opportunistic_slow_server_max_attempts { enabled := false, minMs := 100, maxMs := 200 }
      (fun _ => ProbeResult.success 300) (fun _ => 1000) 300 (fun _ => rfl)
      (by decide) (by decide)).2 rfl).1⟩

/-- Witness for C8 at a concrete already-`in_process` server. -/
theorem set_tracked_in_process_dedup_witness :
    isTracked wStInProcess 30 wId1 = true ∧
    stateOf wStInProcess 30 wId1 = some ValidationState.in_process ∧
    countEpisodesFor 30 wId1 (set wStInProcess 30 30 ["127.0.2.2"] "").started = 0 ∧
    countNotifs 30 wId1 ValidationState.in_process
        (set wStInProcess 30 30 ["127.0.2.2"] "").notifs = 0 :=
  ⟨by decide, by decide,
   (set_tracked_in_process_dedup wStInProcess 30 30 ["127.0.2.2"] "" [wAddr1] wId1
      (by decide) (by decide) (by decide) (by decide) (by decide)).1,
   (set_tracked_in_process_dedup wStInProcess 30 30 ["127.0.2.2"] "" [wAddr1] wId1
      (by decide) (by decide) (by decide) (by decide) (by decide)).2⟩

/-- Witness for C9 at the test's empty-vs-non-empty hostname pair. -/
theorem serverIdentity_equality_witness :
    "other.example.com" ≠ "" ∧
    ServerIdentity.mk { ip := "127.0.0.1", port := 853 } "" ≠
        ServerIdentity.mk { ip := "127.0.0.1", port := 853 } "other.example.com" :=
  ⟨by decide,
   serverIdentity_equality.2.1 { ip := "127.0.0.1", port := 853 }
     { ip := "127.0.0.1", port := 853 } "other.example.com" (by decide)⟩

/-- Witness for C10 at the test's configurations. -/
theorem mode_derived_from_configuration_witness :
    (set wSt0 30 30 ["127.0.2.2"] "").ret = 0 ∧
    (getStatus (set wSt0 30 30 ["127.0.2.2"] "").state 30).mode =
        PrivateDnsMode.OPPORTUNISTIC ∧
    ((set wSt0 30 30 ([] : List String) "").ret = 0 ∧
      getStatus (set wSt0 30 30 ([] : List String) "").state 30 =
          { mode := PrivateDnsMode.OFF, serversMap := [] }) ∧
    getStatus wSt0 30 = { mode := PrivateDnsMode.OFF, serversMap := [] } :=
  ⟨(mode_derived_from_configuration wSt0 30 30 ["127.0.2.2"] [wAddr1]
      (by decide) (by decide)).1.1,
   (mode_derived_from_configuration wSt0 30 30 ["127.0.2.2"] [wAddr1]
      (by decide) (by decide)).1.2,
   (mode_derived_from_configuration wSt0 30 30 ["127.0.2.2"] [wAddr1]
      (by decide) (by decide)).2.1,
   (mode_derived_from_configuration wSt0 30 30 ["127.0.2.2"] [wAddr1]
      (by decide) (by decide)).2.2 wSt0 (by decide)⟩

end PrivateDns
